import Mathlib

/-!
Verification of the TalkToCode backend (`main.py`).

Python strings are modelled as lists of Unicode code points (`PyStr := List Nat`),
raw bytes as `List Nat`, and Python dicts as insertion-ordered association lists.
The GitHub remote is modelled as an input: a resolver for the root listing, and
each directory entry carries its own sub-listing (or `none` when the per-directory
`get_contents` call raises, which the source catches and logs).  The Gemini
service is modelled as an oracle function from the prompt string to the returned
string (the source's `send_to_gemini` returns a string both on success and on
non-200 responses).  Uncaught Python exceptions are modelled with `Except`.
-/

set_option maxHeartbeats 1000000
set_option maxRecDepth 4000

namespace TalkToCode

/-- A Python string, as its sequence of Unicode code points. -/
abbrev PyStr := List Nat

/-- Embed a Lean string literal as a `PyStr`. -/
def pyStr (s : String) : PyStr := s.toList.map (fun c => c.toNat)

/-- Models Python `str.lower` on one code point, restricted to ASCII
(the source only ever compares ASCII patterns and paths; the full Unicode
case table is out of scope). -/
def lowerCode (c : Nat) : Nat := if 65 ≤ c ∧ c ≤ 90 then c + 32 else c

/-- Models Python `str.lower`. -/
def pyLower (s : PyStr) : PyStr := s.map lowerCode

/-- `prefixAt s pat` is true when `pat` is a prefix of `s`. -/
def prefixAt : PyStr → PyStr → Bool
  | _, [] => true
  | [], _ :: _ => false
  | a :: s, b :: p => a == b && prefixAt s p

/-- Models Python's substring test `pat in s`. -/
def pyIn (pat : PyStr) : PyStr → Bool
  | [] => prefixAt [] pat
  | c :: rest => prefixAt (c :: rest) pat || pyIn pat rest

/-- Models Python `s.split("\n")`. -/
def splitNl : PyStr → List PyStr
  | [] => [[]]
  | c :: rest =>
    if c = 10 then [] :: splitNl rest
    else
      match splitNl rest with
      | [] => [[c]]
      | l :: ls => (c :: l) :: ls

/-- ASCII whitespace, the characters Python `str.strip()` and `str.split()`
remove (restricted to ASCII). -/
def isSpace (c : Nat) : Bool := c == 32 || c == 9 || c == 10 || c == 13 || c == 11 || c == 12

/-- Models Python `s.strip()`. -/
def pyStrip (s : PyStr) : PyStr :=
  ((s.dropWhile isSpace).reverse.dropWhile isSpace).reverse

/-- Models Python `s.strip(ch)` for a single strip character. -/
def pyStripChar (ch : Nat) (s : PyStr) : PyStr :=
  ((s.dropWhile (· == ch)).reverse.dropWhile (· == ch)).reverse

/-- Models Python `s.replace(old, new)` (all non-overlapping occurrences,
left to right; an empty `old` inserts `new` between all characters). -/
def pyReplace (old new : PyStr) : PyStr → PyStr
  | [] => if old.isEmpty then new else []
  | c :: rest =>
    if !old.isEmpty && prefixAt (c :: rest) old then
      new ++ pyReplace old new (List.drop (old.length - 1) rest)
    else
      (if old.isEmpty then new else []) ++ c :: pyReplace old new rest
  termination_by s => s.length
  decreasing_by
    · simp only [List.length_drop, List.length_cons]; omega
    · simp only [List.length_cons]; omega

/-- One step of the word-splitting fold behind Python `str.split()`:
the flag records whether a word is currently open. -/
def wordsStep (c : Nat) : Bool × List PyStr → Bool × List PyStr
  | (isOpen, ws) =>
    if isSpace c then (false, ws)
    else
      match isOpen, ws with
      | true, w :: rest => (true, (c :: w) :: rest)
      | _, _ => (true, [c] :: ws)

/-- Models Python `s.split()` (split on runs of whitespace, no empty words). -/
def pyWords (s : PyStr) : List PyStr := (s.foldr wordsStep (false, [])).2

/-- Decimal representation of a natural number, models Python `str(i)`. -/
def numStr (n : Nat) : PyStr := (Nat.toDigits 10 n).map (fun c => c.toNat)

/-- Models Python `sep.join(parts)`. -/
def joinSep (sep : PyStr) : List PyStr → PyStr
  | [] => []
  | [s] => s
  | s :: rest => s ++ sep ++ joinSep sep rest

/-- UTF-8 encoding of one Unicode scalar value. -/
def utf8EncodeCp (c : Nat) : List Nat :=
  if c < 0x80 then [c]
  else if c < 0x800 then [0xC0 + c / 64, 0x80 + c % 64]
  else if c < 0x10000 then [0xE0 + c / 4096, 0x80 + (c / 64) % 64, 0x80 + c % 64]
  else [0xF0 + c / 262144, 0x80 + (c / 4096) % 64, 0x80 + (c / 64) % 64, 0x80 + c % 64]

/-- UTF-8 encoding of a string; `(utf8Encode s).length` models
Python `len(s.encode("utf-8"))`. -/
def utf8Encode : PyStr → List Nat
  | [] => []
  | c :: rest => utf8EncodeCp c ++ utf8Encode rest

/-- A Unicode scalar value: in range and not a surrogate. -/
def validScalar (c : Nat) : Prop := c < 0x110000 ∧ ¬(0xD800 ≤ c ∧ c < 0xE000)

instance (c : Nat) : Decidable (validScalar c) := by
  unfold validScalar; infer_instance

/-- The window a first continuation byte must lie in after a three-byte
lead: `E0` forbids overlong forms, `ED` forbids surrogates. -/
def cont1OkE (b c1 : Nat) : Prop :=
  (b = 0xE0 ∧ 0xA0 ≤ c1 ∧ c1 ≤ 0xBF) ∨ (b = 0xED ∧ 0x80 ≤ c1 ∧ c1 ≤ 0x9F) ∨
    (b ≠ 0xE0 ∧ b ≠ 0xED ∧ 0x80 ≤ c1 ∧ c1 ≤ 0xBF)

instance (b c1 : Nat) : Decidable (cont1OkE b c1) := by
  unfold cont1OkE; infer_instance

/-- The window a first continuation byte must lie in after a four-byte
lead: `F0` forbids overlong forms, `F4` forbids values above `U+10FFFF`. -/
def cont1OkF (b c1 : Nat) : Prop :=
  (b = 0xF0 ∧ 0x90 ≤ c1 ∧ c1 ≤ 0xBF) ∨ (b = 0xF4 ∧ 0x80 ≤ c1 ∧ c1 ≤ 0x8F) ∨
    (b ≠ 0xF0 ∧ b ≠ 0xF4 ∧ 0x80 ≤ c1 ∧ c1 ≤ 0xBF)

instance (b c1 : Nat) : Decidable (cont1OkF b c1) := by
  unfold cont1OkF; infer_instance

/-- Models Python `bytes.decode("utf-8", errors="ignore")`: a strict UTF-8
decoder (rejecting overlong forms, surrogates, and out-of-range leads) that
silently drops undecodable bytes instead of raising.  On an invalid
continuation byte the maximal valid subpart consumed so far is dropped and
decoding resumes at the offending byte, matching CPython. -/
def pyDecodeUtf8Ignore : List Nat → List Nat
  | [] => []
  | b :: bs =>
    if b < 0x80 then b :: pyDecodeUtf8Ignore bs
    else if b < 0xC2 then pyDecodeUtf8Ignore bs
    else if b ≤ 0xDF then
      match bs with
      | [] => []
      | c1 :: bs1 =>
        if 0x80 ≤ c1 ∧ c1 ≤ 0xBF then
          ((b - 0xC0) * 64 + (c1 - 0x80)) :: pyDecodeUtf8Ignore bs1
        else pyDecodeUtf8Ignore (c1 :: bs1)
    else if b ≤ 0xEF then
      match bs with
      | [] => []
      | c1 :: bs1 =>
        if cont1OkE b c1 then
          match bs1 with
          | [] => []
          | c2 :: bs2 =>
            if 0x80 ≤ c2 ∧ c2 ≤ 0xBF then
              ((b - 0xE0) * 4096 + (c1 - 0x80) * 64 + (c2 - 0x80)) :: pyDecodeUtf8Ignore bs2
            else pyDecodeUtf8Ignore (c2 :: bs2)
        else pyDecodeUtf8Ignore (c1 :: bs1)
    else if b ≤ 0xF4 then
      match bs with
      | [] => []
      | c1 :: bs1 =>
        if cont1OkF b c1 then
          match bs1 with
          | [] => []
          | c2 :: bs2 =>
            if 0x80 ≤ c2 ∧ c2 ≤ 0xBF then
              match bs2 with
              | [] => []
              | c3 :: bs3 =>
                if 0x80 ≤ c3 ∧ c3 ≤ 0xBF then
                  ((b - 0xF0) * 262144 + (c1 - 0x80) * 4096 + (c2 - 0x80) * 64 + (c3 - 0x80)) ::
                    pyDecodeUtf8Ignore bs3
                else pyDecodeUtf8Ignore (c3 :: bs3)
            else pyDecodeUtf8Ignore (c2 :: bs2)
        else pyDecodeUtf8Ignore (c1 :: bs1)
    else pyDecodeUtf8Ignore bs

/-!
## The repository tree and the traversal (`fetch_repo_data` / `traverse_directory`)
-/

/-- A directory entry as returned by the GitHub contents API.
For a file, `content` is the raw bytes of `content.decoded_content`, or the
exception message when that attribute access raises (the source catches it
per file).  For a directory, `listing` is the result of
`repo.get_contents(content.path)`, or `none` when that call raises (the
source catches it and only logs).  `other` covers entry types that are
neither `"file"` nor `"dir"` (symlinks, submodules), which the source
records in the structure but otherwise ignores. -/
inductive Entry where
  | file (name : PyStr) (content : Except PyStr (List Nat))
  | dir (name : PyStr) (listing : Option (List Entry))
  | other (name : PyStr)

/-- The name of an entry (`content.name`). -/
def entryName : Entry → PyStr
  | .file n _ => n
  | .dir n _ => n
  | .other n => n

/-- `repo_data`: the `structure` list and the insertion-ordered `files` dict. -/
structure RepoData where
  struct : List PyStr
  files : List (PyStr × PyStr)
  deriving DecidableEq, Repr

/-- The traversal state: `repo_data` plus the closure-captured `file_count`
and `total_size` counters. -/
structure TravState where
  struct : List PyStr
  files : List (PyStr × PyStr)
  fileCount : Nat
  totalSize : Nat
  deriving DecidableEq, Repr

/-- The state at the start of `fetch_repo_data`. -/
def initState : TravState := ⟨[], [], 0, 0⟩

/-- Python dict assignment `m[k] = v` on an insertion-ordered association
list: update in place when the key exists, append otherwise. -/
def dictInsert (m : List (PyStr × PyStr)) (k v : PyStr) : List (PyStr × PyStr) :=
  match m with
  | [] => [(k, v)]
  | (k0, v0) :: rest => if k0 == k then (k0, v) :: rest else (k0, v0) :: dictInsert rest k v

/-- `f"{path}/{content.name}" if path else content.name`. -/
def joinPath (path name : PyStr) : PyStr :=
  if path == [] then name else path ++ 47 :: name

/-- `any(pattern in current_path.lower() for pattern in exclude_patterns)`. -/
def isExcluded (excl : List PyStr) (path : PyStr) : Bool :=
  excl.any (fun pat => pyIn pat (pyLower path))

/-- `repo_data["structure"].append(current_path)`. -/
def addStruct (st : TravState) (cp : PyStr) : TravState :=
  { st with struct := st.struct ++ [cp] }

/-- The file branch of the traversal: decode with `errors="ignore"`, measure
the full encoded size, and store the first 500 characters only when the
count is below `max_files` and the size budget is not exceeded. -/
def processFile (maxFiles : Nat) (st : TravState) (cp : PyStr) (bytes : List Nat) : TravState :=
  let fileContent := pyDecodeUtf8Ignore bytes
  let fileSize := (utf8Encode fileContent).length
  if st.fileCount < maxFiles ∧ st.totalSize + fileSize ≤ 50 * 1024 then
    { st with files := dictInsert st.files cp (fileContent.take 500),
              fileCount := st.fileCount + 1,
              totalSize := st.totalSize + fileSize }
  else st

/-- The except branch of the file case:
`repo_data["files"][current_path] = f"Error: {str(e)}"`. -/
def addErrorFile (st : TravState) (cp msg : PyStr) : TravState :=
  { st with files := dictInsert st.files cp (pyStr "Error: " ++ msg) }

/-- The `for content in directory` loop of `traverse_directory`.  The
directory case inlines the budget check performed at the entry of the
recursive `traverse_directory` call (the check is once per directory
entered, not per file). -/
def traverseEntries (maxFiles : Nat) (excl : List PyStr) :
    TravState → List Entry → PyStr → TravState
  | st, [], _ => st
  | st, e :: rest, path =>
    let cp := joinPath path (entryName e)
    if isExcluded excl cp then traverseEntries maxFiles excl st rest path
    else
      let st1 := addStruct st cp
      let st2 :=
        match e with
        | .file _ (.ok bytes) => processFile maxFiles st1 cp bytes
        | .file _ (.error msg) => addErrorFile st1 cp msg
        | .dir _ none => st1
        | .dir _ (some listing) =>
          if st1.fileCount ≥ maxFiles ∨ st1.totalSize > 50 * 1024 then st1
          else traverseEntries maxFiles excl st1 listing cp
        | .other _ => st1
      traverseEntries maxFiles excl st2 rest path
  termination_by _ l _ => sizeOf l

/-- `traverse_directory(directory, path)`: the budget check at function
entry, then the entry loop. -/
def traverseDirectory (maxFiles : Nat) (excl : List PyStr) (st : TravState)
    (directory : List Entry) (path : PyStr) : TravState :=
  if st.fileCount ≥ maxFiles ∨ st.totalSize > 50 * 1024 then st
  else traverseEntries maxFiles excl st directory path

/-- `fetch_repo_data(repo_url, max_files, exclude_patterns)`.  The remote
(`Github(...).get_repo(repo_path)` followed by `repo.get_contents("")`) is
modelled by `gh`, a resolver from the normalized repo path to the root
listing; when it fails the exception propagates, uncaught (there is no
`return None` path in the source, so the callers' `if repo_data is None`
branches can never run). -/
def fetchRepoData (gh : PyStr → Except PyStr (List Entry)) (repoUrl : PyStr)
    (maxFiles : Nat) (excl : List PyStr) : Except PyStr RepoData :=
  match gh (pyStripChar 47 (pyReplace (pyStr "https://github.com/") [] repoUrl)) with
  | .error e => .error e
  | .ok root =>
    let st := traverseDirectory maxFiles excl initState root []
    .ok ⟨st.struct, st.files⟩

/-!
## Formatter, Gemini calls, search
-/

/-- JSON values the handlers actually consume from a request's `repo_data`
object: an array of strings (`structure`), an object of strings (`files`),
or a bare string.  Other shapes would make the source raise a dynamic type
error, modelled below with `Except.error`. -/
inductive JField where
  | strs (l : List PyStr)
  | dict (m : List (PyStr × PyStr))
  | str (s : PyStr)
  deriving DecidableEq

/-- A raw JSON object, insertion-ordered. -/
abbrev RawObj := List (PyStr × JField)

/-- Python dict lookup `obj[k]` returning `none` on a missing key. -/
def jsonGet (obj : RawObj) (k : PyStr) : Option JField :=
  match obj with
  | [] => none
  | (k0, v) :: rest => if k0 == k then some v else jsonGet rest k

/-- The per-file blocks of `format_for_gemini`:
`output += f"--- {file_path} ---\n{content}\n"`. -/
def fileBlocks : List (PyStr × PyStr) → PyStr
  | [] => []
  | (p, c) :: rest => pyStr "--- " ++ p ++ pyStr " ---\n" ++ c ++ pyStr "\n" ++ fileBlocks rest

/-- `format_for_gemini(repo_data)` on a raw `repo_data` object.  A missing
key raises `KeyError` and a wrongly-typed value raises a dynamic error;
both propagate to the caller. -/
def formatForGemini (repoData : RawObj) : Except PyStr PyStr :=
  match jsonGet repoData (pyStr "structure") with
  | none => .error (pyStr "KeyError: structure")
  | some (.strs struct) =>
    match jsonGet repoData (pyStr "files") with
    | none => .error (pyStr "KeyError: files")
    | some (.dict files) =>
      .ok (pyStr "Directory Structure:\n" ++ joinSep (pyStr "\n") struct ++ pyStr "\n\n"
            ++ pyStr "File Contents:\n" ++ fileBlocks files)
    | some _ => .error (pyStr "TypeError")
  | some _ => .error (pyStr "TypeError")

/-- The raw JSON object `jsonify` produces for a fetched `RepoData`. -/
def RepoData.toRaw (rd : RepoData) : RawObj :=
  [(pyStr "structure", .strs rd.struct), (pyStr "files", .dict rd.files)]

/-- `send_to_gemini(formatted_data, user_query, conversation_history)`:
builds the prompt and performs one outbound call, modelled by the oracle
`gemini` (the source returns a string both on 200 and on error statuses). -/
def sendToGemini (gemini : PyStr → PyStr) (formattedData userQuery history : PyStr) : PyStr :=
  gemini (pyStr "Repo Data:\n" ++ formattedData
    ++ pyStr "\n\nConversation History:\n" ++ history
    ++ pyStr "\n\nQuery: " ++ userQuery)

/-- `get_code_summary(formatted_data)`. -/
def getCodeSummary (gemini : PyStr → PyStr) (formattedData : PyStr) : PyStr :=
  sendToGemini gemini formattedData
    (pyStr "Provide a concise summary of this repository\x27s purpose and key files based on the provided data.")
    (pyStr "")

/-- `get_code_suggestions(formatted_data)`. -/
def getCodeSuggestions (gemini : PyStr → PyStr) (formattedData : PyStr) : PyStr :=
  sendToGemini gemini formattedData
    (pyStr "Analyze the code in this repo data and suggest 2-3 specific improvements, additions, or fixes (e.g., add error handling, optimize a function, add documentation). Include file names where applicable.")
    (pyStr "")

/-- The inner line loop of `search_code`: 1-based enumeration, per-line
case-insensitive match, `f"{file_path}: Line {i}: {line.strip()}"`. -/
def searchLines (keyword filePath : PyStr) : List PyStr → Nat → List PyStr
  | [], _ => []
  | line :: rest, i =>
    if pyIn (pyLower keyword) (pyLower line) then
      (filePath ++ pyStr ": Line " ++ numStr i ++ pyStr ": " ++ pyStrip line)
        :: searchLines keyword filePath rest (i + 1)
    else searchLines keyword filePath rest (i + 1)

/-- `search_code(repo_data, keyword)`, over the items of
`repo_data["files"]`: files whose whole content matches case-insensitively
are scanned line by line. -/
def searchCode (files : List (PyStr × PyStr)) (keyword : PyStr) : List PyStr :=
  match files with
  | [] => []
  | (p, c) :: rest =>
    (if pyIn (pyLower keyword) (pyLower c) then searchLines keyword p (splitNl c) 1 else [])
      ++ searchCode rest keyword

/-- Modelled from the spec (§4.4): for every file in `files` (insertion
order), scan its lines (split on newline) in order; for every line
containing the keyword case-insensitively, emit
`"<path>: Line <1-based line number>: <trimmed line>"`.  Written
independently of the source for refinement comparison. -/
def searchCodeSpec (files : List (PyStr × PyStr)) (keyword : PyStr) : List PyStr :=
  files.foldr (fun fc acc =>
    (((splitNl fc.2).enumFrom 1).foldr (fun il acc2 =>
      if pyIn (pyLower keyword) (pyLower il.2) then
        (fc.1 ++ pyStr ": Line " ++ numStr il.1 ++ pyStr ": " ++ pyStrip il.2) :: acc2
      else acc2) []) ++ acc) []

/-!
## HTTP handlers

Request bodies are modelled with the fields each handler reads
(`data.get(...)`, with `none` for an absent field; defaulted fields carry
the default already applied).  A handler's result is `Except PyStr Resp`:
`Except.error` is an uncaught Python exception escaping the handler.
-/

/-- The JSON responses the handlers build with `jsonify`. -/
inductive Resp where
  | err (msg : PyStr) (status : Nat)
  | ingestOk (filesAnalyzed estimatedTokens : Nat) (summary suggestions : PyStr) (repoData : RepoData)
  | analysisOk (analysis : PyStr)
  | structureOk (structureText : PyStr)
  | searchOk (results : List PyStr)
  | getRepoOk (repoData : RepoData) (filesAnalyzed : Nat)
  deriving DecidableEq

/-- The `/ingest` request body: `repo_url`, `exclude` (default `[]`),
`max_size_kb` (default 50). -/
structure IngestBody where
  repoUrl : Option PyStr
  exclude : List PyStr
  maxSizeKb : Nat

/-- Python truthiness test `not s` for an optional string field. -/
def strFalsy : Option PyStr → Bool
  | none => true
  | some s => s == []

/-- `ingest_repo` (`POST /ingest`).  Note the source's
`if repo_data is None` check can never fire: `fetch_repo_data` either
returns a dict or raises, and the exception propagates uncaught here. -/
def ingestRepo (gh : PyStr → Except PyStr (List Entry)) (gemini : PyStr → PyStr)
    (body : IngestBody) : Except PyStr Resp :=
  if strFalsy body.repoUrl then .ok (.err (pyStr "Missing repo_url") 400)
  else
    match body.repoUrl with
    | none => .ok (.err (pyStr "Missing repo_url") 400)
    | some url =>
      match fetchRepoData gh url 50 body.exclude with
      | .error e => .error e
      | .ok repoData =>
        match formatForGemini repoData.toRaw with
        | .error e => .error e
        | .ok formattedData =>
          .ok (.ingestOk repoData.files.length (pyWords formattedData).length
            (getCodeSummary gemini formattedData) (getCodeSuggestions gemini formattedData)
            repoData)

/-- `analyze_codebase` (`POST /analyze_codebase`): `repo_data` missing or
falsy (the empty object) gives the 400 error; otherwise the raw object is
formatted and summarized. -/
def analyzeCodebase (gemini : PyStr → PyStr) (repoData : Option RawObj) : Except PyStr Resp :=
  match repoData with
  | none => .ok (.err (pyStr "Missing repo_data") 400)
  | some rd =>
    if rd.isEmpty then .ok (.err (pyStr "Missing repo_data") 400)
    else
      match formatForGemini rd with
      | .error e => .error e
      | .ok formattedData => .ok (.analysisOk (getCodeSummary gemini formattedData))

/-- `analyze_structure` (`POST /analyze_structure`):
`"\n".join(repo_data["structure"])`. -/
def analyzeStructure (repoData : Option RawObj) : Except PyStr Resp :=
  match repoData with
  | none => .ok (.err (pyStr "Missing repo_data") 400)
  | some rd =>
    if rd.isEmpty then .ok (.err (pyStr "Missing repo_data") 400)
    else
      match jsonGet rd (pyStr "structure") with
      | none => .error (pyStr "KeyError: structure")
      | some (.strs struct) => .ok (.structureOk (joinSep (pyStr "\n") struct))
      | some _ => .error (pyStr "TypeError")

/-- `search_repo` (`POST /search`): 400 when either field is absent or
falsy, otherwise `search_code(repo_data, keyword)` (which subscripts
`repo_data["files"]`). -/
def searchRepo (repoData : Option RawObj) (keyword : Option PyStr) : Except PyStr Resp :=
  match repoData, keyword with
  | some rd, some kw =>
    if rd.isEmpty || kw == [] then .ok (.err (pyStr "Missing repo_data or keyword") 400)
    else
      match jsonGet rd (pyStr "files") with
      | none => .error (pyStr "KeyError: files")
      | some (.dict files) => .ok (.searchOk (searchCode files kw))
      | some _ => .error (pyStr "TypeError")
  | _, _ => .ok (.err (pyStr "Missing repo_data or keyword") 400)

/-- The `/get_repo_data` request body. -/
structure GetRepoDataBody where
  repoUrl : Option PyStr
  exclude : List PyStr

/-- `get_repo_data` (`POST /get_repo_data`).  As in `/ingest`, a fetch
failure is an exception that propagates past the dead
`if repo_data is None` branch. -/
def getRepoData (gh : PyStr → Except PyStr (List Entry)) (body : GetRepoDataBody) :
    Except PyStr Resp :=
  if strFalsy body.repoUrl then .ok (.err (pyStr "Missing repo_url") 400)
  else
    match body.repoUrl with
    | none => .ok (.err (pyStr "Missing repo_url") 400)
    | some url =>
      match fetchRepoData gh url 50 body.exclude with
      | .error e => .error e
      | .ok repoData => .ok (.getRepoOk repoData repoData.files.length)

/-!
## Invariants of the traversal
-/

theorem traverseEntries_preserve (maxFiles : Nat) (excl : List PyStr) (P : TravState → Prop)
    (hfile : ∀ st cp bytes, isExcluded excl cp = false → P st →
      P (processFile maxFiles (addStruct st cp) cp bytes))
    (herr : ∀ st cp msg, isExcluded excl cp = false → P st →
      P (addErrorFile (addStruct st cp) cp msg))
    (hrec : ∀ st cp, isExcluded excl cp = false → P st → P (addStruct st cp)) :
    ∀ n l, sizeOf l ≤ n → ∀ st path, P st → P (traverseEntries maxFiles excl st l path) := by
  intro n
  induction n with
  | zero =>
    intro l hl
    cases l with
    | nil => simp at hl
    | cons e rest => simp at hl
  | succ n ih =>
    intro l hl st path hP
    cases l with
    | nil => rw [traverseEntries]; exact hP
    | cons e rest =>
      rw [traverseEntries]
      have hrest : sizeOf rest ≤ n := by
        cases e <;> simp at hl ⊢ <;> omega
      by_cases hex : isExcluded excl (joinPath path (entryName e)) = true
      · simp only [hex, if_true]
        exact ih rest hrest st path hP
      · replace hex : isExcluded excl (joinPath path (entryName e)) = false := by
          simpa using hex
        simp only [hex, Bool.false_eq_true, if_false]
        cases e with
        | file name content =>
          cases content with
          | ok bytes =>
            exact ih rest hrest _ path (hfile st _ bytes hex hP)
          | error msg =>
            exact ih rest hrest _ path (herr st _ msg hex hP)
        | dir name listing =>
          cases listing with
          | none => exact ih rest hrest _ path (hrec st _ hex hP)
          | some sub =>
            have hsub : sizeOf sub ≤ n := by simp at hl ⊢; omega
            by_cases hhalt : (addStruct st (joinPath path (entryName (Entry.dir name (some sub))))).fileCount ≥ maxFiles ∨ (addStruct st (joinPath path (entryName (Entry.dir name (some sub))))).totalSize > 50 * 1024
            · simp only [hhalt, if_true]
              exact ih rest hrest _ path (hrec st _ hex hP)
            · simp only [hhalt, if_false]
              exact ih rest hrest _ path (ih sub hsub _ _ (hrec st _ hex hP))
        | other name => exact ih rest hrest _ path (hrec st _ hex hP)

theorem traverseDirectory_preserve (maxFiles : Nat) (excl : List PyStr) (P : TravState → Prop)
    (hfile : ∀ st cp bytes, isExcluded excl cp = false → P st →
      P (processFile maxFiles (addStruct st cp) cp bytes))
    (herr : ∀ st cp msg, isExcluded excl cp = false → P st →
      P (addErrorFile (addStruct st cp) cp msg))
    (hrec : ∀ st cp, isExcluded excl cp = false → P st → P (addStruct st cp))
    (st : TravState) (d : List Entry) (path : PyStr) (hP : P st) :
    P (traverseDirectory maxFiles excl st d path) := by
  unfold traverseDirectory
  split
  · exact hP
  · exact traverseEntries_preserve maxFiles excl P hfile herr hrec (sizeOf d) d le_rfl st path hP

theorem mem_dictInsert {m : List (PyStr × PyStr)} {k v : PyStr} {kv : PyStr × PyStr}
    (h : kv ∈ dictInsert m k v) : kv ∈ m ∨ kv = (k, v) := by
  induction m with
  | nil => simpa [dictInsert] using h
  | cons hd tl ih =>
    obtain ⟨k0, v0⟩ := hd
    by_cases hk : (k0 == k) = true
    · simp only [dictInsert, if_pos hk, List.mem_cons] at h
      rcases h with h | h
      · right; rw [h, eq_of_beq hk]
      · left; exact List.mem_cons_of_mem _ h
    · simp only [dictInsert, if_neg hk, List.mem_cons] at h
      rcases h with h | h
      · left; rw [h]; exact List.mem_cons_self _ _
      · rcases ih h with h' | h'
        · left; exact List.mem_cons_of_mem _ h'
        · right; exact h'

theorem addStruct_struct (s : TravState) (cp : PyStr) :
    (addStruct s cp).struct = s.struct ++ [cp] := rfl

theorem addStruct_files (s : TravState) (cp : PyStr) :
    (addStruct s cp).files = s.files := rfl

theorem processFile_struct (mf : Nat) (s : TravState) (cp : PyStr) (bytes : List Nat) :
    (processFile mf s cp bytes).struct = s.struct := by
  simp only [processFile]; split <;> rfl

theorem processFile_files_sub (mf : Nat) (s : TravState) (cp : PyStr) (bytes : List Nat) :
    ∀ kv ∈ (processFile mf s cp bytes).files,
      kv ∈ s.files ∨ kv = (cp, (pyDecodeUtf8Ignore bytes).take 500) := by
  intro kv hkv
  simp only [processFile] at hkv
  split at hkv
  · exact mem_dictInsert hkv
  · exact Or.inl hkv

theorem addErrorFile_struct (s : TravState) (cp msg : PyStr) :
    (addErrorFile s cp msg).struct = s.struct := rfl

theorem addErrorFile_files_sub (s : TravState) (cp msg : PyStr) :
    ∀ kv ∈ (addErrorFile s cp msg).files,
      kv ∈ s.files ∨ kv = (cp, pyStr "Error: " ++ msg) := by
  intro kv hkv
  exact mem_dictInsert hkv

/-- During the traversal, the `total_size` counter never goes above the
hardcoded 50 KiB budget: the per-file guard adds a file\'s size only when
the sum stays within budget. -/
theorem traverseDirectory_totalSize (maxFiles : Nat) (excl : List PyStr) (st : TravState)
    (d : List Entry) (path : PyStr) (h : st.totalSize ≤ 50 * 1024) :
    (traverseDirectory maxFiles excl st d path).totalSize ≤ 50 * 1024 := by
  refine traverseDirectory_preserve maxFiles excl (fun s => s.totalSize ≤ 50 * 1024)
    ?_ ?_ ?_ st d path h
  · intro s cp bytes _ hs
    simp only [processFile, addStruct]
    split
    · next hg => simpa using hg.2
    · simpa using hs
  · intro s cp msg _ hs
    simpa [addErrorFile, addStruct] using hs
  · intro s cp _ hs
    simpa [addStruct] using hs

/-- During the traversal, the `file_count` counter never goes above
`max_files`: the per-file guard increments only below the cap. -/
theorem traverseDirectory_fileCount (maxFiles : Nat) (excl : List PyStr) (st : TravState)
    (d : List Entry) (path : PyStr) (h : st.fileCount ≤ maxFiles) :
    (traverseDirectory maxFiles excl st d path).fileCount ≤ maxFiles := by
  refine traverseDirectory_preserve maxFiles excl (fun s => s.fileCount ≤ maxFiles)
    ?_ ?_ ?_ st d path h
  · intro s cp bytes _ hs
    simp only [processFile, addStruct]
    split
    · next hg => exact Nat.succ_le_of_lt hg.1
    · simpa using hs
  · intro s cp msg _ hs
    simpa [addErrorFile, addStruct] using hs
  · intro s cp _ hs
    simpa [addStruct] using hs

/-- Containment: every key of the `files` dict was first appended to
`structure`. -/
theorem traverseDirectory_containment (maxFiles : Nat) (excl : List PyStr) (st : TravState)
    (d : List Entry) (path : PyStr) (h : ∀ kv ∈ st.files, kv.1 ∈ st.struct) :
    ∀ kv ∈ (traverseDirectory maxFiles excl st d path).files,
      kv.1 ∈ (traverseDirectory maxFiles excl st d path).struct := by
  refine traverseDirectory_preserve maxFiles excl
    (fun s => ∀ kv ∈ s.files, kv.1 ∈ s.struct) ?_ ?_ ?_ st d path h
  · intro s cp bytes _ hs kv hkv
    rw [processFile_struct, addStruct_struct]
    rcases processFile_files_sub _ _ _ _ kv hkv with h' | h'
    · rw [addStruct_files] at h'
      exact List.mem_append_left _ (hs kv h')
    · rw [h']; exact List.mem_append_right _ (List.mem_singleton.mpr rfl)
  · intro s cp msg _ hs kv hkv
    rw [addErrorFile_struct, addStruct_struct]
    rcases addErrorFile_files_sub _ _ _ kv hkv with h' | h'
    · rw [addStruct_files] at h'
      exact List.mem_append_left _ (hs kv h')
    · rw [h']; exact List.mem_append_right _ (List.mem_singleton.mpr rfl)
  · intro s cp _ hs kv hkv
    rw [addStruct_struct]
    rw [addStruct_files] at hkv
    exact List.mem_append_left _ (hs kv hkv)

/-- Every stored `files` value is either a decode-error placeholder
(`"Error: " + str(e)`) or at most 500 characters long. -/
theorem traverseDirectory_valueShape (maxFiles : Nat) (excl : List PyStr) (st : TravState)
    (d : List Entry) (path : PyStr)
    (h : ∀ kv ∈ st.files, (∃ m, kv.2 = pyStr "Error: " ++ m) ∨ kv.2.length ≤ 500) :
    ∀ kv ∈ (traverseDirectory maxFiles excl st d path).files,
      (∃ m, kv.2 = pyStr "Error: " ++ m) ∨ kv.2.length ≤ 500 := by
  refine traverseDirectory_preserve maxFiles excl
    (fun s => ∀ kv ∈ s.files, (∃ m, kv.2 = pyStr "Error: " ++ m) ∨ kv.2.length ≤ 500)
    ?_ ?_ ?_ st d path h
  · intro s cp bytes _ hs kv hkv
    rcases processFile_files_sub _ _ _ _ kv hkv with h' | h'
    · exact hs kv h'
    · right; rw [h']; exact List.length_take_le 500 _
  · intro s cp msg _ hs kv hkv
    rcases addErrorFile_files_sub _ _ _ kv hkv with h' | h'
    · exact hs kv h'
    · left; exact ⟨msg, by rw [h']⟩
  · intro s cp _ hs kv hkv
    rw [addStruct_files] at hkv
    exact hs kv hkv

/-- Every path recorded in `structure` passed the exclusion filter. -/
theorem traverseDirectory_structNotExcluded (maxFiles : Nat) (excl : List PyStr) (st : TravState)
    (d : List Entry) (path : PyStr) (h : ∀ p ∈ st.struct, isExcluded excl p = false) :
    ∀ p ∈ (traverseDirectory maxFiles excl st d path).struct, isExcluded excl p = false := by
  refine traverseDirectory_preserve maxFiles excl
    (fun s => ∀ p ∈ s.struct, isExcluded excl p = false) ?_ ?_ ?_ st d path h
  · intro s cp bytes hex hs p hp
    rw [processFile_struct, addStruct_struct] at hp
    rcases List.mem_append.mp hp with h' | h'
    · exact hs p h'
    · rw [List.mem_singleton.mp h']; exact hex
  · intro s cp msg hex hs p hp
    rw [addErrorFile_struct, addStruct_struct] at hp
    rcases List.mem_append.mp hp with h' | h'
    · exact hs p h'
    · rw [List.mem_singleton.mp h']; exact hex
  · intro s cp hex hs p hp
    rw [addStruct_struct] at hp
    rcases List.mem_append.mp hp with h' | h'
    · exact hs p h'
    · rw [List.mem_singleton.mp h']; exact hex

/-!
## String lemmas: substring tests and newline splitting
-/

theorem prefixAt_nil_pat (s : PyStr) : prefixAt s [] = true := by
  cases s <;> rfl

theorem pyIn_nil_pat (s : PyStr) : pyIn [] s = true := by
  cases s <;> simp [pyIn, prefixAt_nil_pat]

theorem prefixAt_extend {s pat : PyStr} (t : PyStr) (h : prefixAt s pat = true) :
    prefixAt (s ++ t) pat = true := by
  induction pat generalizing s with
  | nil => exact prefixAt_nil_pat _
  | cons b p ih =>
    cases s with
    | nil => simp [prefixAt] at h
    | cons a s' =>
      simp only [List.cons_append, prefixAt, Bool.and_eq_true] at h ⊢
      exact ⟨h.1, ih h.2⟩

theorem pyIn_cons {pat s : PyStr} (c : Nat) (h : pyIn pat s = true) :
    pyIn pat (c :: s) = true := by
  simp only [pyIn, Bool.or_eq_true]
  right; exact h

theorem pyIn_append_right {pat s : PyStr} (t : PyStr) (h : pyIn pat s = true) :
    pyIn pat (s ++ t) = true := by
  induction s with
  | nil =>
    cases pat with
    | nil => exact pyIn_nil_pat t
    | cons b p => simp [pyIn, prefixAt] at h
  | cons c s' ih =>
    simp only [pyIn, Bool.or_eq_true] at h
    simp only [List.cons_append, pyIn, Bool.or_eq_true]
    rcases h with h | h
    · left; exact prefixAt_extend t h
    · right; exact ih h

theorem pyIn_append_left {pat t : PyStr} (s : PyStr) (h : pyIn pat t = true) :
    pyIn pat (s ++ t) = true := by
  induction s with
  | nil => simpa using h
  | cons c s' ih => simpa only [List.cons_append] using pyIn_cons c ih

theorem splitNl_ne_nil (s : PyStr) : splitNl s ≠ [] := by
  cases s with
  | nil => simp [splitNl]
  | cons c rest =>
    simp only [splitNl]
    split
    · simp
    · split <;> simp

theorem splitNl_head_prefix : ∀ (s l : PyStr) (ls : List PyStr),
    splitNl s = l :: ls → ∃ t, s = l ++ t := by
  intro s
  induction s with
  | nil =>
    intro l ls h
    simp only [splitNl] at h
    injection h with h1 h2
    exact ⟨[], by rw [← h1]; rfl⟩
  | cons c rest ih =>
    intro l ls h
    by_cases hc : c = 10
    · subst hc
      simp only [splitNl, if_pos rfl] at h
      injection h with h1 h2
      exact ⟨10 :: rest, by rw [← h1]; rfl⟩
    · simp only [splitNl, if_neg hc] at h
      rcases hsr : splitNl rest with _ | ⟨l0, ls0⟩
      · exact absurd hsr (splitNl_ne_nil rest)
      · rw [hsr] at h
        injection h with h1 h2
        rcases ih l0 ls0 hsr with ⟨t, ht⟩
        refine ⟨t, ?_⟩
        rw [← h1, List.cons_append, ← ht]

theorem mem_splitNl_pyIn {pat : PyStr} : ∀ (s l : PyStr), l ∈ splitNl s →
    pyIn pat (pyLower l) = true → pyIn pat (pyLower s) = true := by
  intro s
  induction s with
  | nil =>
    intro l hl h
    simp only [splitNl, List.mem_singleton] at hl
    subst hl
    exact h
  | cons c rest ih =>
    intro l hl h
    by_cases hc : c = 10
    · subst hc
      simp only [splitNl, eq_self_iff_true, if_true, List.mem_cons] at hl
      obtain hl | hl := hl
      · subst hl
        cases pat with
        | nil => exact pyIn_nil_pat _
        | cons b p => simp [pyLower, pyIn, prefixAt] at h
      · simpa only [pyLower, List.map_cons] using pyIn_cons (lowerCode 10) (ih l hl h)
    · simp only [splitNl, if_neg hc] at hl
      rcases hsr : splitNl rest with _ | ⟨l0, ls0⟩
      · exact absurd hsr (splitNl_ne_nil rest)
      · rw [hsr] at hl
        simp only [List.mem_cons] at hl
        rcases hl with hl | hl
        · subst hl
          rcases splitNl_head_prefix rest l0 ls0 hsr with ⟨t, ht⟩
          subst ht
          have hsplit : pyLower (c :: (l0 ++ t)) = pyLower (c :: l0) ++ pyLower t := by
            simp [pyLower]
          rw [hsplit]
          exact pyIn_append_right _ h
        · have hmem : l ∈ splitNl rest := by
            rw [hsr]; exact List.mem_cons_of_mem _ hl
          simpa only [pyLower, List.map_cons] using pyIn_cons (lowerCode c) (ih l hmem h)

/-!
## Search: the source agrees with the spec's description
-/

theorem searchLines_eq_fold (kw p : PyStr) : ∀ (lines : List PyStr) (i : Nat),
    searchLines kw p lines i = (lines.enumFrom i).foldr (fun il acc2 =>
      if pyIn (pyLower kw) (pyLower il.2) then
        (p ++ pyStr ": Line " ++ numStr il.1 ++ pyStr ": " ++ pyStrip il.2) :: acc2
      else acc2) [] := by
  intro lines
  induction lines with
  | nil => intro i; rfl
  | cons line rest ih =>
    intro i
    simp only [searchLines, List.enumFrom, List.foldr]
    rw [ih]

theorem searchLines_nil_of (kw p : PyStr) : ∀ (lines : List PyStr),
    (∀ l ∈ lines, pyIn (pyLower kw) (pyLower l) = false) →
    ∀ i, searchLines kw p lines i = [] := by
  intro lines
  induction lines with
  | nil => intro _ i; rfl
  | cons line rest ih =>
    intro h i
    have h0 : ¬ (pyIn (pyLower kw) (pyLower line) = true) := by
      simp [h line (List.mem_cons_self _ _)]
    simp only [searchLines, if_neg h0]
    exact ih (fun l hl => h l (List.mem_cons_of_mem _ hl)) (i + 1)

theorem searchCodeSpec_cons (fc : PyStr × PyStr) (rest : List (PyStr × PyStr)) (kw : PyStr) :
    searchCodeSpec (fc :: rest) kw =
      (((splitNl fc.2).enumFrom 1).foldr (fun il acc2 =>
        if pyIn (pyLower kw) (pyLower il.2) then
          (fc.1 ++ pyStr ": Line " ++ numStr il.1 ++ pyStr ": " ++ pyStrip il.2) :: acc2
        else acc2) []) ++ searchCodeSpec rest kw := rfl

/-- The whole-content pre-check in `search_code` does not change the
result: if no line of a file matches, the file contributes nothing either
way, and a matching line makes the whole content match. -/
theorem searchCode_eq_spec (files : List (PyStr × PyStr)) (kw : PyStr) :
    searchCode files kw = searchCodeSpec files kw := by
  induction files with
  | nil => rfl
  | cons fc rest ih =>
    obtain ⟨p, c⟩ := fc
    rw [searchCodeSpec_cons]
    by_cases hg : pyIn (pyLower kw) (pyLower c) = true
    · simp only [searchCode, if_pos hg]
      rw [ih, searchLines_eq_fold]
    · have hg' : pyIn (pyLower kw) (pyLower c) = false := by simpa using hg
      have hlines : ∀ l ∈ splitNl c, pyIn (pyLower kw) (pyLower l) = false := by
        intro l hl
        by_contra hne
        have htrue : pyIn (pyLower kw) (pyLower l) = true := by
          simpa using hne
        have := mem_splitNl_pyIn c l hl htrue
        rw [hg'] at this
        exact Bool.false_ne_true this
      simp only [searchCode, if_neg hg]
      rw [ih, ← searchLines_eq_fold, searchLines_nil_of kw p (splitNl c) hlines 1]

/-!
## The decoder never fails: valid UTF-8 round-trips, invalid bytes are dropped
-/

theorem pyDecodeUtf8Ignore_encodeCp {c : Nat} (h : validScalar c) (rest : List Nat) :
    pyDecodeUtf8Ignore (utf8EncodeCp c ++ rest) = c :: pyDecodeUtf8Ignore rest := by
  obtain ⟨hlt, hsur⟩ := h
  by_cases h1 : c < 0x80
  · rw [utf8EncodeCp, if_pos h1]
    rw [List.cons_append, List.nil_append, pyDecodeUtf8Ignore.eq_def]
    simp only []
    rw [if_pos h1]
  · by_cases h2 : c < 0x800
    · rw [utf8EncodeCp, if_neg h1, if_pos h2]
      simp only [List.cons_append, List.nil_append]
      rw [pyDecodeUtf8Ignore.eq_def]
      simp only []
      have hb1 : ¬ (192 + c / 64 < 128) := by omega
      have hb2 : ¬ (192 + c / 64 < 194) := by omega
      have hb3 : 192 + c / 64 ≤ 223 := by omega
      have hc1 : 128 ≤ 128 + c % 64 ∧ 128 + c % 64 ≤ 191 := by omega
      rw [if_neg hb1, if_neg hb2, if_pos hb3, if_pos hc1]
      congr 1
      omega
    · by_cases h3 : c < 0x10000
      · rw [utf8EncodeCp, if_neg h1, if_neg h2, if_pos h3]
        simp only [List.cons_append, List.nil_append]
        rw [pyDecodeUtf8Ignore.eq_def]
        simp only []
        have hb1 : ¬ (224 + c / 4096 < 128) := by omega
        have hb2 : ¬ (224 + c / 4096 < 194) := by omega
        have hb3 : ¬ (224 + c / 4096 ≤ 223) := by omega
        have hb4 : 224 + c / 4096 ≤ 239 := by omega
        have hc1 : cont1OkE (224 + c / 4096) (128 + c / 64 % 64) := by
          simp only [cont1OkE]; omega
        have hc2 : 128 ≤ 128 + c % 64 ∧ 128 + c % 64 ≤ 191 := by omega
        rw [if_neg hb1, if_neg hb2, if_neg hb3, if_pos hb4, if_pos hc1, if_pos hc2]
        congr 1
        omega
      · rw [utf8EncodeCp, if_neg h1, if_neg h2, if_neg h3]
        simp only [List.cons_append, List.nil_append]
        rw [pyDecodeUtf8Ignore.eq_def]
        simp only []
        have hb1 : ¬ (240 + c / 262144 < 128) := by omega
        have hb2 : ¬ (240 + c / 262144 < 194) := by omega
        have hb3 : ¬ (240 + c / 262144 ≤ 223) := by omega
        have hb4 : ¬ (240 + c / 262144 ≤ 239) := by omega
        have hb5 : 240 + c / 262144 ≤ 244 := by omega
        have hc1 : cont1OkF (240 + c / 262144) (128 + c / 4096 % 64) := by
          simp only [cont1OkF]; omega
        have hc2 : 128 ≤ 128 + c / 64 % 64 ∧ 128 + c / 64 % 64 ≤ 191 := by omega
        have hc3 : 128 ≤ 128 + c % 64 ∧ 128 + c % 64 ≤ 191 := by omega
        rw [if_neg hb1, if_neg hb2, if_neg hb3, if_neg hb4, if_pos hb5, if_pos hc1,
          if_pos hc2, if_pos hc3]
        congr 1
        omega

theorem pyDecodeUtf8Ignore_encode : ∀ (cs : PyStr), (∀ c ∈ cs, validScalar c) →
    pyDecodeUtf8Ignore (utf8Encode cs) = cs := by
  intro cs
  induction cs with
  | nil => intro _; rfl
  | cons c rest ih =>
    intro h
    rw [utf8Encode, pyDecodeUtf8Ignore_encodeCp (h c (List.mem_cons_self _ _)),
      ih (fun x hx => h x (List.mem_cons_of_mem _ hx))]

theorem pyDecodeUtf8Ignore_drop255 (bs : List Nat) :
    pyDecodeUtf8Ignore (255 :: bs) = pyDecodeUtf8Ignore bs := by
  rw [pyDecodeUtf8Ignore.eq_def]
  simp only []
  have hb1 : ¬ ((255 : Nat) < 128) := by omega
  have hb2 : ¬ ((255 : Nat) < 194) := by omega
  have hb3 : ¬ ((255 : Nat) ≤ 223) := by omega
  have hb4 : ¬ ((255 : Nat) ≤ 239) := by omega
  have hb5 : ¬ ((255 : Nat) ≤ 244) := by omega
  rw [if_neg hb1, if_neg hb2, if_neg hb3, if_neg hb4, if_neg hb5]


/-!
## Claim theorems
-/

/-- Two sibling files at the root; with `max_files = 1` the budget is
reached after the first one. -/
def c1Tree : List Entry := [Entry.file (pyStr "a") (.ok [97]), Entry.file (pyStr "b") (.ok [98])]

/-- C1 (counterexample): with `max_files = 1`, storing file `"a"` makes
`file_count` reach `max_files` (the budget the claim calls exceeded), yet
the sibling `"b"` is still visited and appended to `structure` — the walk
does not halt at that point, so "no further entry at any level is visited"
is false. -/
theorem c1_counterexample :
    (processFile 1 (addStruct initState (pyStr "a")) (pyStr "a") [97]).fileCount = 1 ∧
    traverseDirectory 1 [] initState c1Tree [] =
      ⟨[pyStr "a", pyStr "b"], [(pyStr "a", [97])], 1, 1⟩ := by
  constructor
  · decide
  · simp [traverseDirectory, traverseEntries, c1Tree, initState, processFile, addStruct,
      joinPath, isExcluded, entryName, dictInsert, pyDecodeUtf8Ignore, utf8Encode,
      utf8EncodeCp, pyStr]

/-- C1 (amended): the budget condition is only checked at entry to each
`traverse_directory` call, once per directory: when it already holds, the
call returns its state unchanged, so no directory entered after the budget
is exceeded has any entry visited; remaining siblings of directories
already being traversed are still visited (see the counterexample), and
the stored-file count itself never exceeds `max_files`. -/
theorem c1_budget_halt (maxFiles : Nat) (excl : List PyStr) (st : TravState)
    (d : List Entry) (path : PyStr) :
    (st.fileCount ≥ maxFiles ∨ st.totalSize > 50 * 1024 →
      traverseDirectory maxFiles excl st d path = st) ∧
    (st.fileCount ≤ maxFiles →
      (traverseDirectory maxFiles excl st d path).fileCount ≤ maxFiles) := by
  constructor
  · intro h
    rw [traverseDirectory, if_pos h]
  · intro h
    exact traverseDirectory_fileCount maxFiles excl st d path h

/-- Witness for C1 (amended) at a concrete exhausted state. -/
theorem c1_budget_halt_witness :
    traverseDirectory 1 [] ⟨[], [], 1, 0⟩ c1Tree [] = ⟨[], [], 1, 0⟩ ∧
    (traverseDirectory 1 [] ⟨[], [], 1, 0⟩ c1Tree []).fileCount ≤ 1 :=
  ⟨(c1_budget_halt 1 [] ⟨[], [], 1, 0⟩ c1Tree []).1 (Or.inl (by decide)),
   (c1_budget_halt 1 [] ⟨[], [], 1, 0⟩ c1Tree []).2 (by decide)⟩

/-- A remote on which the repository cannot be resolved:
`get_repo` raises. -/
def c2Gh : PyStr → Except PyStr (List Entry) :=
  fun _ => .error (pyStr "UnknownObjectException: 404")

/-- A Gemini oracle (never reached in the C2 scenario). -/
def c2Gemini : PyStr → PyStr := fun _ => []

def c2IngestBody : IngestBody := ⟨some (pyStr "https://github.com/nosuch/repo"), [], 50⟩

def c2GetBody : GetRepoDataBody := ⟨some (pyStr "https://github.com/nosuch/repo"), []⟩

/-- C2 (code bug): when the remote resolution fails, `fetch_repo_data`
raises; the exception escapes `/ingest` and `/get_repo_data` uncaught
(the source's `if repo_data is None` 500 branch is dead code, since
`fetch_repo_data` never returns `None`), so no `{error}` JSON body is
produced by the handler. -/
theorem c2_fetch_failure_uncaught :
    ingestRepo c2Gh c2Gemini c2IngestBody = .error (pyStr "UnknownObjectException: 404") ∧
    getRepoData c2Gh c2GetBody = .error (pyStr "UnknownObjectException: 404") ∧
    ∀ r : Resp, ingestRepo c2Gh c2Gemini c2IngestBody ≠ .ok r := by
  refine ⟨rfl, rfl, ?_⟩
  intro r h
  rw [show ingestRepo c2Gh c2Gemini c2IngestBody
      = .error (pyStr "UnknownObjectException: 404") from rfl] at h
  exact Except.noConfusion h

/-- Destructuring a successful fetch: the remote resolved and the returned
`RepoData` is the projection of the traversal from the initial state. -/
theorem fetch_ok_elim {gh : PyStr → Except PyStr (List Entry)} {url : PyStr}
    {maxFiles : Nat} {excl : List PyStr} {rd : RepoData}
    (h : fetchRepoData gh url maxFiles excl = .ok rd) :
    ∃ root, gh (pyStripChar 47 (pyReplace (pyStr "https://github.com/") [] url)) = .ok root ∧
      rd = ⟨(traverseDirectory maxFiles excl initState root []).struct,
            (traverseDirectory maxFiles excl initState root []).files⟩ := by
  unfold fetchRepoData at h
  cases hgh : gh (pyStripChar 47 (pyReplace (pyStr "https://github.com/") [] url)) with
  | error e => rw [hgh] at h; exact absurd h (by simp)
  | ok root =>
    rw [hgh] at h
    refine ⟨root, rfl, ?_⟩
    injection h with h'
    rw [← h']

/-- C3: the containment invariant of every fetched `RepoData`. -/
theorem c3_containment (gh : PyStr → Except PyStr (List Entry)) (repoUrl : PyStr)
    (maxFiles : Nat) (excl : List PyStr) (rd : RepoData)
    (h : fetchRepoData gh repoUrl maxFiles excl = .ok rd) :
    ∀ kv ∈ rd.files, kv.1 ∈ rd.struct := by
  obtain ⟨root, -, hrd⟩ := fetch_ok_elim h
  subst hrd
  intro kv hkv
  exact traverseDirectory_containment maxFiles excl initState root []
    (by intro kv hkv2; simp [initState] at hkv2) kv hkv

/-- A one-file remote used to witness C3. -/
def c3Gh : PyStr → Except PyStr (List Entry) :=
  fun _ => .ok [Entry.file (pyStr "a.py") (.ok [97])]

/-- Witness for C3 at a concrete fetch. -/
theorem c3_containment_witness :
    (pyStr "a.py", ([97] : PyStr)).1 ∈ ([pyStr "a.py"] : List PyStr) :=
  c3_containment c3Gh (pyStr "u") 50 [] ⟨[pyStr "a.py"], [(pyStr "a.py", [97])]⟩
    (by simp [fetchRepoData, c3Gh, traverseDirectory, traverseEntries, initState, processFile,
      addStruct, joinPath, isExcluded, entryName, dictInsert, pyDecodeUtf8Ignore, utf8Encode,
      utf8EncodeCp])
    (pyStr "a.py", [97]) (by decide)

/-- A 500-character exception message; the stored placeholder is 507
characters long. -/
def c4Msg : PyStr := List.replicate 500 120

/-- A remote whose single file raises on `decoded_content`. -/
def c4Gh : PyStr → Except PyStr (List Entry) :=
  fun _ => .ok [Entry.file (pyStr "big.bin") (.error c4Msg)]

/-- C4 (counterexample): a decode-error entry stores `"Error: " + str(e)`,
which is 507 characters here — more than 500, and not a truncation of any
decoded file content. -/
theorem c4_counterexample :
    fetchRepoData c4Gh (pyStr "u") 50 [] =
      .ok ⟨[pyStr "big.bin"], [(pyStr "big.bin", pyStr "Error: " ++ c4Msg)]⟩ ∧
    (pyStr "Error: " ++ c4Msg).length = 507 := by
  constructor
  · simp [fetchRepoData, c4Gh, traverseDirectory, traverseEntries, initState, addErrorFile,
      addStruct, joinPath, isExcluded, entryName, dictInsert]
  · decide

/-- C4 (amended): every value in a fetched `files` mapping is either at
most 500 characters (the truncation of the decoded file) or a decode-error
placeholder of the form `"Error: " + str(e)`. -/
theorem c4_value_bound (gh : PyStr → Except PyStr (List Entry)) (repoUrl : PyStr)
    (maxFiles : Nat) (excl : List PyStr) (rd : RepoData)
    (h : fetchRepoData gh repoUrl maxFiles excl = .ok rd) :
    ∀ kv ∈ rd.files, (∃ m, kv.2 = pyStr "Error: " ++ m) ∨ kv.2.length ≤ 500 := by
  obtain ⟨root, -, hrd⟩ := fetch_ok_elim h
  subst hrd
  intro kv hkv
  exact traverseDirectory_valueShape maxFiles excl initState root []
    (by intro kv hkv2; simp [initState] at hkv2) kv hkv

/-- A one-file remote used to witness the amended C4. -/
def c4WitnessGh : PyStr → Except PyStr (List Entry) :=
  fun _ => .ok [Entry.file (pyStr "w.py") (.ok [97])]

/-- Witness for the amended C4 at a concrete fetch. -/
theorem c4_value_bound_witness :
    (∃ m, (pyStr "w.py", ([97] : PyStr)).2 = pyStr "Error: " ++ m) ∨
      (pyStr "w.py", ([97] : PyStr)).2.length ≤ 500 :=
  c4_value_bound c4WitnessGh (pyStr "u") 50 [] ⟨[pyStr "w.py"], [(pyStr "w.py", [97])]⟩
    (by simp [fetchRepoData, c4WitnessGh, traverseDirectory, traverseEntries, initState,
      processFile, addStruct, joinPath, isExcluded, entryName, dictInsert, pyDecodeUtf8Ignore,
      utf8Encode, utf8EncodeCp])
    (pyStr "w.py", [97]) (by decide)

/-- A one-file tree used to witness C5. -/
def c5Tree : List Entry := [Entry.file (pyStr "a") (.ok [97])]

/-- C5: the cumulative `total_size` counter never exceeds the 50 KiB
budget — from any state within budget, and in particular over the whole
`fetch_repo_data` run from the initial counters. -/
theorem c5_size_budget (maxFiles : Nat) (excl : List PyStr) (st : TravState)
    (d : List Entry) (path : PyStr) :
    (st.totalSize ≤ 50 * 1024 →
      (traverseDirectory maxFiles excl st d path).totalSize ≤ 50 * 1024) ∧
    (traverseDirectory maxFiles excl initState d path).totalSize ≤ 50 * 1024 :=
  ⟨traverseDirectory_totalSize maxFiles excl st d path,
   traverseDirectory_totalSize maxFiles excl initState d path (by decide)⟩

/-- Witness for C5 at a concrete traversal. -/
theorem c5_size_budget_witness :
    (traverseDirectory 50 [] initState c5Tree []).totalSize ≤ 50 * 1024 :=
  (c5_size_budget 50 [] initState c5Tree []).1 (by decide)

/-- C6: a path whose lowercased form contains an exclusion pattern never
appears in `structure` nor as a key of `files` (stated contrapositively:
every recorded path matches no pattern). -/
theorem c6_exclusion (gh : PyStr → Except PyStr (List Entry)) (repoUrl : PyStr)
    (maxFiles : Nat) (excl : List PyStr) (rd : RepoData)
    (h : fetchRepoData gh repoUrl maxFiles excl = .ok rd) :
    ∀ pat ∈ excl, ∀ p : PyStr, (p ∈ rd.struct ∨ ∃ v, (p, v) ∈ rd.files) →
      pyIn pat (pyLower p) = false := by
  obtain ⟨root, -, hrd⟩ := fetch_ok_elim h
  subst hrd
  intro pat hpat p hp
  have hmem : p ∈ (traverseDirectory maxFiles excl initState root []).struct := by
    rcases hp with hp | ⟨v, hv⟩
    · exact hp
    · exact traverseDirectory_containment maxFiles excl initState root []
        (by intro kv hkv2; simp [initState] at hkv2) (p, v) hv
  have hnx := traverseDirectory_structNotExcluded maxFiles excl initState root []
    (by intro q hq; simp [initState] at hq) p hmem
  rw [isExcluded, List.any_eq_false] at hnx
  simpa using hnx pat hpat

/-- A remote with an excluded directory, used to witness C6. -/
def c6Gh : PyStr → Except PyStr (List Entry) :=
  fun _ => .ok [Entry.dir (pyStr "tests") (some [Entry.file (pyStr "foo.py") (.ok [97])]),
    Entry.file (pyStr "a.py") (.ok [97])]

/-- Witness for C6: fetching with `exclude = ["test"]` records only
`"a.py"`; the recorded path matches no pattern. -/
theorem c6_exclusion_witness :
    pyIn (pyStr "test") (pyLower (pyStr "a.py")) = false :=
  c6_exclusion c6Gh (pyStr "u") 50 [pyStr "test"] ⟨[pyStr "a.py"], [(pyStr "a.py", [97])]⟩
    (by simp [fetchRepoData, c6Gh, traverseDirectory, traverseEntries, initState, processFile,
      addStruct, joinPath, isExcluded, entryName, dictInsert, pyDecodeUtf8Ignore, utf8Encode,
      utf8EncodeCp, pyStr, pyIn, prefixAt, pyLower, lowerCode])
    (pyStr "test") (by decide) (pyStr "a.py") (Or.inl (by decide))

/-- A remote whose single file is the lone invalid byte `0xFF`. -/
def c7Gh : PyStr → Except PyStr (List Entry) :=
  fun _ => .ok [Entry.file (pyStr "a.bin") (.ok [255])]

/-- C7 (counterexample): the source decodes with `errors="ignore"`, not
`errors="replace"`: the invalid byte `0xFF` is dropped, the decoded string
is empty, and no replacement character `U+FFFD` appears — contradicting
the claim that undecodable bytes yield replacement characters instead of
being dropped. -/
theorem c7_counterexample :
    pyDecodeUtf8Ignore [255] = [] ∧ 0xFFFD ∉ pyDecodeUtf8Ignore [255] ∧
    fetchRepoData c7Gh (pyStr "u") 50 [] = .ok ⟨[pyStr "a.bin"], [(pyStr "a.bin", [])]⟩ := by
  refine ⟨by decide, by decide, ?_⟩
  simp [fetchRepoData, c7Gh, traverseDirectory, traverseEntries, initState, processFile,
    addStruct, joinPath, isExcluded, entryName, dictInsert, pyDecodeUtf8Ignore, utf8Encode,
    utf8EncodeCp]

/-- C7 (amended): decoding never fails — it is a total function; valid
UTF-8 input decodes to exactly its scalar values, and an undecodable byte
(here the always-invalid `0xFF`) is dropped from the output rather than
replaced or raising. -/
theorem c7_decode_total_ignore :
    (∀ cs : PyStr, (∀ c ∈ cs, validScalar c) → pyDecodeUtf8Ignore (utf8Encode cs) = cs) ∧
    (∀ bs : List Nat, pyDecodeUtf8Ignore (255 :: bs) = pyDecodeUtf8Ignore bs) :=
  ⟨pyDecodeUtf8Ignore_encode, pyDecodeUtf8Ignore_drop255⟩

/-- Witness for the amended C7: a concrete string with 1-, 2-, 3- and
4-byte characters round-trips, and a dropped `0xFF` leaves the rest. -/
theorem c7_decode_total_ignore_witness :
    pyDecodeUtf8Ignore (utf8Encode (pyStr "aé€𝄞")) = pyStr "aé€𝄞" ∧
    pyDecodeUtf8Ignore [255, 97] = pyDecodeUtf8Ignore [97] :=
  ⟨c7_decode_total_ignore.1 (pyStr "aé€𝄞") (by decide),
   c7_decode_total_ignore.2 [97]⟩

/-- The `files` mapping of the C8 scenario `RepoData`. -/
def c8Files : List (PyStr × PyStr) :=
  [(pyStr "a.py", pyStr "import os\nprint(\x27hi\x27)"),
   (pyStr "dir/b.py", pyStr "def foo():\n    pass")]

/-- C8: `search_code` returns exactly the per-line matches described by
the spec (the whole-content pre-check changes nothing), and on the
scenario `RepoData` with keyword `"os"` it returns
`["a.py: Line 1: import os"]`. -/
theorem c8_search_code :
    (∀ (files : List (PyStr × PyStr)) (kw : PyStr),
      searchCode files kw = searchCodeSpec files kw) ∧
    searchCode c8Files (pyStr "os") = [pyStr "a.py: Line 1: import os"] :=
  ⟨searchCode_eq_spec, by decide⟩

/-- C9: `/ingest` ignores `max_size_kb` — two requests identical except
for that field produce identical results against the same remote and the
same generation oracle (the fetch always runs with the hardcoded
`max_files = 50` and 50 KiB budget). -/
theorem c9_max_size_kb_ignored (gh : PyStr → Except PyStr (List Entry))
    (gemini : PyStr → PyStr) (url : Option PyStr) (excl : List PyStr) (m₁ m₂ : Nat) :
    ingestRepo gh gemini ⟨url, excl, m₁⟩ = ingestRepo gh gemini ⟨url, excl, m₂⟩ := rfl

/-- C10: for `/analyze_codebase`, `/analyze_structure` and `/search`, a
present-but-falsy required field (the empty object for `repo_data`, the
empty string for `keyword`) yields the same 400 missing-field error as an
absent field. -/
theorem c10_falsy_is_missing (gemini : PyStr → PyStr) (rd : Option RawObj)
    (kw : Option PyStr) :
    (analyzeCodebase gemini (some []) = analyzeCodebase gemini none ∧
      analyzeCodebase gemini none = .ok (.err (pyStr "Missing repo_data") 400)) ∧
    (analyzeStructure (some []) = analyzeStructure none ∧
      analyzeStructure none = .ok (.err (pyStr "Missing repo_data") 400)) ∧
    (searchRepo (some []) kw = searchRepo none kw ∧
      searchRepo rd (some []) = searchRepo rd none ∧
      searchRepo none none = .ok (.err (pyStr "Missing repo_data or keyword") 400)) := by
  refine ⟨⟨rfl, rfl⟩, ⟨rfl, rfl⟩, ?_, ?_, rfl⟩
  · cases kw <;> simp [searchRepo]
  · cases rd with
    | none => rfl
    | some r => simp [searchRepo]

end TalkToCode
